import Mathlib

/-!
Shallow embedding of `src/lib/algorithms/binary-search.py`: an instrumented
binary search with step-by-step trace recording, input validation, and a
serializable result record.

Python numeric values are modelled by `Val` (integers plus the three
non-finite floats `nan`, `inf`, `-inf`, with Python's comparison semantics).
Python dictionaries (trace events, serialized results) are modelled by
insertion-ordered association lists over the JSON-like value type `PyVal`.
Raising `ValueError` is modelled by the `Except String` monad.
-/

namespace BinarySearchPy

/-- Python numeric values: integers, plus the non-finite floats. -/
inductive Val where
  | int : Int → Val
  | nan : Val
  | inf : Val
  | ninf : Val
deriving DecidableEq, Repr

/-- Python `<` on numbers: any comparison involving `nan` is `False`;
`-inf` is below every finite number and `inf`, `inf` above every finite
number and `-inf`. -/
def Val.lt : Val → Val → Bool
  | .int a, .int b => a < b
  | .ninf, .int _ => true
  | .ninf, .inf => true
  | .int _, .inf => true
  | _, _ => false

/-- Python `==` on numbers: `nan` is unequal to everything, itself included. -/
def Val.eqb : Val → Val → Bool
  | .int a, .int b => a == b
  | .inf, .inf => true
  | .ninf, .ninf => true
  | _, _ => false

/-- `math.isfinite` (the `_is_finite` helper of the class). -/
def Val.isFinite : Val → Bool
  | .int _ => true
  | _ => false

/-- Python `str` of a numeric value, as used in formatted messages. -/
def Val.toStr : Val → String
  | .int i => toString i
  | .nan => "nan"
  | .inf => "inf"
  | .ninf => "-inf"

/-- JSON-like values: the contents of the Python dictionaries the tracker
builds (booleans, numbers, strings, lists, nested string-keyed dicts). -/
inductive PyVal where
  | b : Bool → PyVal
  | i : Int → PyVal
  | v : Val → PyVal
  | s : String → PyVal
  | list : List PyVal → PyVal
  | dict : List (String × PyVal) → PyVal

/-- A trace event: a Python dict with string keys, in insertion order. -/
abbrev StepDict := List (String × PyVal)

/-- Dictionary lookup (first binding of the key, as in a Python dict whose
keys are never assigned twice). -/
def lookupKey (d : StepDict) (k : String) : Option PyVal :=
  (d.find? (fun p => p.1 == k)).map (fun p => p.2)

/-- `_generate_range_indices`: Python `list(range(start, end + 1))`. -/
def _generate_range_indices (start stop : Int) : List Int :=
  (List.range (stop + 1 - start).toNat).map (fun k => start + (k : Int))

/-- `_get_comparison_result`. -/
def _get_comparison_result (target mid : Val) : String :=
  if target.eqb mid then "equal"
  else if target.lt mid then "less"
  else "greater"

/-- `_get_comparison_symbol`. -/
def _get_comparison_symbol (target mid : Val) : String :=
  if target.eqb mid then "=="
  else if target.lt mid then "<"
  else ">"

/-- `_add_step`: stamps the step with `operationCount = len(self.steps) + 1`
(a fresh key, so appended at the end of the dict) and appends the step to
the log. -/
def _add_step (steps : List StepDict) (step : StepDict) : List StepDict :=
  steps ++ [step ++ [("operationCount", PyVal.i (steps.length + 1))]]

/-- Python `data[i]` for the in-bounds non-negative indices the search core
uses (out-of-bounds access is modelled by a default; the safety theorem
shows the core never reaches it). -/
def getAt (data : List Val) (i : Int) : Val :=
  data.getD i.toNat (Val.int 0)

/-- Python `(left + right) // 2` (floor division). -/
def midpoint (left right : Int) : Int :=
  Int.fdiv (left + right) 2

/-- What `_binary_search_core` leaves behind: its `{'found', 'index'}`
return dict together with the final `self.steps` and `self.comparisons`. -/
structure CoreResult where
  found : Bool
  index : Int
  steps : List StepDict
  comparisons : Nat

/-- `_binary_search_core`, with the mutable `self.steps` / `self.comparisons`
threaded explicitly. -/
def _binary_search_core (data : List Val) (target : Val) (track_steps : Bool)
    (left right : Int) (steps0 : List StepDict) (comparisons0 : Nat) : CoreResult :=
  if hlr : left ≤ right then
    let mid := midpoint left right
    let steps1 :=
      if track_steps then
        _add_step (_add_step steps0
          [("type", PyVal.s "highlight"),
           ("indices", PyVal.list ((_generate_range_indices left right).map PyVal.i)),
           ("metadata", PyVal.dict
             [("left", PyVal.i left), ("right", PyVal.i right), ("mid", PyVal.i mid),
              ("searchRange", PyVal.b true), ("rangeSize", PyVal.i (right - left + 1))]),
           ("description", PyVal.s ("Search range: [" ++ toString left ++ ", " ++
             toString right ++ "] (" ++ toString (right - left + 1) ++ " elements)"))])
          [("type", PyVal.s "highlight"),
           ("indices", PyVal.list [PyVal.i left, PyVal.i mid, PyVal.i right]),
           ("metadata", PyVal.dict
             [("left", PyVal.i left), ("right", PyVal.i right), ("mid", PyVal.i mid),
              ("pointers", PyVal.dict
                [("left", PyVal.i left), ("mid", PyVal.i mid), ("right", PyVal.i right)]),
              ("leftValue", PyVal.v (getAt data left)),
              ("midValue", PyVal.v (getAt data mid)),
              ("rightValue", PyVal.v (getAt data right))]),
           ("description", PyVal.s ("Pointers: left=" ++ toString left ++ "(" ++
             (getAt data left).toStr ++ "), mid=" ++ toString mid ++ "(" ++
             (getAt data mid).toStr ++ "), right=" ++ toString right ++ "(" ++
             (getAt data right).toStr ++ ")"))]
      else steps0
    let comparisons := comparisons0 + 1
    let steps2 :=
      if track_steps then
        _add_step steps1
          [("type", PyVal.s "compare"),
           ("indices", PyVal.list [PyVal.i mid]),
           ("metadata", PyVal.dict
             [("left", PyVal.i left), ("right", PyVal.i right), ("mid", PyVal.i mid),
              ("targetValue", PyVal.v target), ("midValue", PyVal.v (getAt data mid)),
              ("comparison", PyVal.s (_get_comparison_result target (getAt data mid))),
              ("comparisonCount", PyVal.i comparisons)]),
           ("description", PyVal.s ("Compare: target(" ++ target.toStr ++ ") " ++
             _get_comparison_symbol target (getAt data mid) ++ " mid(" ++
             (getAt data mid).toStr ++ ")"))]
      else steps1
    if (getAt data mid).eqb target then
      let steps3 :=
        if track_steps then
          _add_step steps2
            [("type", PyVal.s "found"),
             ("indices", PyVal.list [PyVal.i mid]),
             ("metadata", PyVal.dict
               [("left", PyVal.i left), ("right", PyVal.i right), ("mid", PyVal.i mid),
                ("found", PyVal.b true), ("targetValue", PyVal.v target),
                ("foundIndex", PyVal.i mid), ("totalComparisons", PyVal.i comparisons)]),
             ("description", PyVal.s ("🎉 Found target " ++ target.toStr ++
               " at index " ++ toString mid ++ " after " ++ toString comparisons ++
               " comparisons!"))]
        else steps2
      ⟨true, mid, steps3, comparisons⟩
    else if (getAt data mid).lt target then
      let steps3 :=
        if track_steps then
          _add_step steps2
            [("type", PyVal.s "eliminate"),
             ("indices", PyVal.list ((_generate_range_indices left mid).map PyVal.i)),
             ("metadata", PyVal.dict
               [("left", PyVal.i left), ("right", PyVal.i right), ("mid", PyVal.i mid),
                ("eliminated", PyVal.s "left"),
                ("eliminatedRange", PyVal.list [PyVal.i left, PyVal.i mid]),
                ("reason", PyVal.s ((getAt data mid).toStr ++ " < " ++ target.toStr)),
                ("remainingRange", PyVal.list [PyVal.i (mid + 1), PyVal.i right]),
                ("remainingSize", PyVal.i (right - mid))]),
             ("description", PyVal.s ((getAt data mid).toStr ++ " < " ++ target.toStr ++
               ": eliminate left half [" ++ toString left ++ ", " ++ toString mid ++
               "], search [" ++ toString (mid + 1) ++ ", " ++ toString right ++ "]"))]
        else steps2
      _binary_search_core data target track_steps (mid + 1) right steps3 comparisons
    else
      let steps3 :=
        if track_steps then
          _add_step steps2
            [("type", PyVal.s "eliminate"),
             ("indices", PyVal.list ((_generate_range_indices mid right).map PyVal.i)),
             ("metadata", PyVal.dict
               [("left", PyVal.i left), ("right", PyVal.i right), ("mid", PyVal.i mid),
                ("eliminated", PyVal.s "right"),
                ("eliminatedRange", PyVal.list [PyVal.i mid, PyVal.i right]),
                ("reason", PyVal.s ((getAt data mid).toStr ++ " > " ++ target.toStr)),
                ("remainingRange", PyVal.list [PyVal.i left, PyVal.i (mid - 1)]),
                ("remainingSize", PyVal.i (mid - left))]),
             ("description", PyVal.s ((getAt data mid).toStr ++ " > " ++ target.toStr ++
               ": eliminate right half [" ++ toString mid ++ ", " ++ toString right ++
               "], search [" ++ toString left ++ ", " ++ toString (mid - 1) ++ "]"))]
        else steps2
      _binary_search_core data target track_steps left (mid - 1) steps3 comparisons
  else
    let steps1 :=
      if track_steps then
        _add_step steps0
          [("type", PyVal.s "eliminate"),
           ("indices", PyVal.list []),
           ("metadata", PyVal.dict
             [("found", PyVal.b false), ("totalComparisons", PyVal.i comparisons0),
              ("searchExhausted", PyVal.b true),
              ("finalLeft", PyVal.i left), ("finalRight", PyVal.i right)]),
           ("description", PyVal.s ("❌ Target " ++ target.toStr ++ " not found after " ++
             toString comparisons0 ++ " comparisons (search space exhausted)"))]
      else steps0
    ⟨false, -1, steps1, comparisons0⟩
termination_by (right + 1 - left).toNat
decreasing_by
  · have h : midpoint left right = (left + right) / 2 := Int.fdiv_eq_ediv _ (by norm_num)
    omega
  · have h : midpoint left right = (left + right) / 2 := Int.fdiv_eq_ediv _ (by norm_num)
    omega

/-- The sortedness loop of `_validate_input`
(`for i in range(1, len(data)): if data[i] < data[i-1]: raise ...`),
with `i` the index of the first of the two adjacent elements in view. -/
def _check_sorted : List Val → Nat → Except String Unit
  | a :: b :: rest, i =>
    if b.lt a then
      .error ("Array must be sorted for binary search. Found " ++ b.toStr ++ " < " ++
        a.toStr ++ " at indices " ++ toString (i + 1) ++ " and " ++ toString i)
    else _check_sorted (b :: rest) (i + 1)
  | _, _ => .ok ()

/-- The per-element finiteness loop of `_validate_input`
(`for i, value in enumerate(data): ...`). -/
def _check_finite : List Val → Nat → Except String Unit
  | [], _ => .ok ()
  | v :: rest, i =>
    if !v.isFinite then
      .error ("Array element at index " ++ toString i ++
        " must be a finite number, got: " ++ v.toStr)
    else _check_finite rest (i + 1)

/-- `_validate_input`, restricted to numeric arguments (the domain of every
search that reaches the core). The `isinstance(data, list)` check always
passes in the typed embedding; then the target check, the sortedness loop and
the finiteness loop run in the source's order. The full dynamically-typed
argument domain, where the sortedness loop's comparison can itself raise a
`TypeError` on a non-numeric element before the per-element `isinstance`
check is reached, is modelled by `_validate_input_obj` and `execute_obj`
below. -/
def _validate_input (data : List Val) (target : Val) : Except String Unit :=
  if !target.isFinite then .error "Target must be a finite number"
  else
    match _check_sorted data 0 with
    | .error e => .error e
    | .ok _ => _check_finite data 0

/-- `BinarySearchResult`. -/
structure BinarySearchResult where
  found : Bool
  index : Int
  steps : List StepDict
  comparisons : Nat

/-- `BinarySearchResult.to_dict`. -/
def BinarySearchResult.to_dict (r : BinarySearchResult) : List (String × PyVal) :=
  [("found", PyVal.b r.found), ("index", PyVal.i r.index),
   ("steps", PyVal.list (r.steps.map PyVal.dict)), ("comparisons", PyVal.i r.comparisons)]

/-- `BinarySearchAlgorithm.execute`: reset the per-call state, validate,
emit the `init` event, short-circuit the empty array, otherwise run the
core and assemble the result. -/
def execute (data : List Val) (target : Val) (track_steps : Bool := true) :
    Except String BinarySearchResult :=
  match _validate_input data target with
  | .error e => .error e
  | .ok _ =>
    let steps : List StepDict := []
    let comparisons : Nat := 0
    let steps :=
      if track_steps then
        _add_step steps
          [("type", PyVal.s "init"),
           ("indices", PyVal.list []),
           ("metadata", PyVal.dict
             [("target", PyVal.v target), ("arrayLength", PyVal.i data.length),
              ("algorithm", PyVal.s "binary-search"), ("language", PyVal.s "python")]),
           ("description", PyVal.s ("Initialize binary search for target " ++
             target.toStr ++ " in sorted array of " ++ toString data.length ++
             " elements"))]
      else steps
    if data.length = 0 then
      let steps :=
        if track_steps then
          _add_step steps
            [("type", PyVal.s "eliminate"),
             ("indices", PyVal.list []),
             ("metadata", PyVal.dict
               [("found", PyVal.b false), ("reason", PyVal.s "empty-array")]),
             ("description", PyVal.s "Array is empty - target cannot be found")]
        else steps
      .ok ⟨false, -1, steps, comparisons⟩
    else
      let r := _binary_search_core data target track_steps 0 ((data.length : Int) - 1)
        steps comparisons
      .ok ⟨r.found, r.index, r.steps, r.comparisons⟩

/-- The module-level `binary_search` convenience function: run without step
tracking and return only the index (propagating validation errors). -/
def binary_search (data : List Val) (target : Val) : Except String Int :=
  match execute data target false with
  | .error e => .error e
  | .ok r => .ok r.index

/-- The module-level `binary_search_with_steps` convenience function. -/
def binary_search_with_steps (data : List Val) (target : Val) :
    Except String BinarySearchResult :=
  execute data target true

/-- `get_complexity_info` (static descriptive strings). -/
def get_complexity_info : List (String × String) :=
  [("timeComplexity", "O(log n)"), ("spaceComplexity", "O(1)"),
   ("bestCase", "O(1)"), ("worstCase", "O(log n)"), ("averageCase", "O(log n)"),
   ("description", "Binary search divides the search space in half with each comparison, resulting in logarithmic time complexity.")]

/-- A Python exception, distinguishing the kinds the source can raise: the
`ValueError`s of its explicit checks, and the `TypeError` that comparing
incomparable element types raises inside the sortedness loop. -/
inductive PyErr where
  | valueError : String → PyErr
  | typeError : String → PyErr
deriving DecidableEq

/-- Whether an exception is the validation kind (`ValueError`). -/
def PyErr.isValueError : PyErr → Bool
  | .valueError _ => true
  | .typeError _ => false

/-- An arbitrary object passed in the data list or as the target: a number,
or a non-numeric value (modelled by strings, Python's canonical
order-incomparable-with-numbers type). -/
inductive PyObj where
  | num : Val → PyObj
  | str : String → PyObj
deriving DecidableEq

/-- Python `str` of an object (f-string formatting in error messages). -/
def PyObj.toStr : PyObj → String
  | .num v => v.toStr
  | .str s => s

/-- The Python type name, as cited in `TypeError` messages. -/
def PyObj.typeName : PyObj → String
  | .num (Val.int _) => "int"
  | .num _ => "float"
  | .str _ => "str"

/-- `isinstance(value, (int, float)) and math.isfinite(value)`, with
Python's short-circuiting `or` in the negated source condition: a
non-numeric value fails `isinstance` before `math.isfinite` is called. -/
def PyObj.isNumFinite : PyObj → Bool
  | .num v => v.isFinite
  | .str _ => false

/-- Python `<` on strings: lexicographic comparison of code points. -/
def charListLt : List Char → List Char → Bool
  | _, [] => false
  | [], _ :: _ => true
  | c :: cs, d :: ds =>
    if c.toNat < d.toNat then true
    else if d.toNat < c.toNat then false
    else charListLt cs ds

/-- Python `<` on objects: numeric pairs and string pairs compare; a mixed
pair raises `TypeError`, exactly as `data[i] < data[i - 1]` does in the
source's sortedness loop. -/
def pyLtObj : PyObj → PyObj → Except PyErr Bool
  | .num a, .num b => .ok (a.lt b)
  | .str a, .str b => .ok (charListLt a.data b.data)
  | a, b => .error (.typeError ("\x27<\x27 not supported between instances of \x27" ++
      a.typeName ++ "\x27 and \x27" ++ b.typeName ++ "\x27"))

/-- The numeric value of an object; the non-numeric case is unreachable once
validation has passed (every element is then a finite number). -/
def PyObj.toVal : PyObj → Val
  | .num v => v
  | .str _ => Val.nan

/-- The sortedness loop of `_validate_input` over arbitrary objects: each
adjacent comparison may raise `TypeError` before the out-of-order check can
raise `ValueError`. -/
def _check_sorted_obj : List PyObj → Nat → Except PyErr Unit
  | a :: b :: rest, i =>
    match pyLtObj b a with
    | .error e => .error e
    | .ok true =>
      .error (.valueError ("Array must be sorted for binary search. Found " ++
        b.toStr ++ " < " ++ a.toStr ++ " at indices " ++ toString (i + 1) ++
        " and " ++ toString i))
    | .ok false => _check_sorted_obj (b :: rest) (i + 1)
  | _, _ => .ok ()

/-- The per-element finiteness loop of `_validate_input` over arbitrary
objects (`not isinstance(value, (int, float)) or not isfinite(value)`). -/
def _check_finite_obj : List PyObj → Nat → Except PyErr Unit
  | [], _ => .ok ()
  | v :: rest, i =>
    if !v.isNumFinite then
      .error (.valueError ("Array element at index " ++ toString i ++
        " must be a finite number, got: " ++ v.toStr))
    else _check_finite_obj rest (i + 1)

/-- `_validate_input` over the full dynamically-typed argument domain:
target check, then the sortedness loop (which may raise `TypeError`), then
the per-element finiteness loop, in the source's order. -/
def _validate_input_obj (data : List PyObj) (target : PyObj) : Except PyErr Unit :=
  if !target.isNumFinite then .error (.valueError "Target must be a finite number")
  else
    match _check_sorted_obj data 0 with
    | .error e => .error e
    | .ok _ => _check_finite_obj data 0

/-- `BinarySearchAlgorithm.execute` over the full dynamically-typed argument
domain: validate (propagating either exception kind), then run the numeric
search exactly as `execute` does — validation success guarantees every
element and the target are finite numbers, so taking their numeric values is
the identity on the data the core actually sees. -/
def execute_obj (data : List PyObj) (target : PyObj) (track_steps : Bool := true) :
    Except PyErr BinarySearchResult :=
  match _validate_input_obj data target with
  | .error e => .error e
  | .ok _ =>
    let vdata := data.map PyObj.toVal
    let vtarget := target.toVal
    let steps : List StepDict := []
    let comparisons : Nat := 0
    let steps :=
      if track_steps then
        _add_step steps
          [("type", PyVal.s "init"),
           ("indices", PyVal.list []),
           ("metadata", PyVal.dict
             [("target", PyVal.v vtarget), ("arrayLength", PyVal.i vdata.length),
              ("algorithm", PyVal.s "binary-search"), ("language", PyVal.s "python")]),
           ("description", PyVal.s ("Initialize binary search for target " ++
             vtarget.toStr ++ " in sorted array of " ++ toString vdata.length ++
             " elements"))]
      else steps
    if vdata.length = 0 then
      let steps :=
        if track_steps then
          _add_step steps
            [("type", PyVal.s "eliminate"),
             ("indices", PyVal.list []),
             ("metadata", PyVal.dict
               [("found", PyVal.b false), ("reason", PyVal.s "empty-array")]),
             ("description", PyVal.s "Array is empty - target cannot be found")]
        else steps
      .ok ⟨false, -1, steps, comparisons⟩
    else
      let r := _binary_search_core vdata vtarget track_steps 0 ((vdata.length : Int) - 1)
        steps comparisons
      .ok ⟨r.found, r.index, r.steps, r.comparisons⟩

/-- `generate_test_cases` (static educational fixtures). -/
def generate_test_cases : List (List (String × PyVal)) :=
  [[("data", PyVal.list ([1, 3, 5, 7, 9].map (fun n => PyVal.v (Val.int n)))),
    ("target", PyVal.v (Val.int 5)),
    ("expected", PyVal.dict [("found", PyVal.b true), ("index", PyVal.i 2)])],
   [("data", PyVal.list ([1, 3, 5, 7, 9].map (fun n => PyVal.v (Val.int n)))),
    ("target", PyVal.v (Val.int 1)),
    ("expected", PyVal.dict [("found", PyVal.b true), ("index", PyVal.i 0)])],
   [("data", PyVal.list ([1, 3, 5, 7, 9].map (fun n => PyVal.v (Val.int n)))),
    ("target", PyVal.v (Val.int 9)),
    ("expected", PyVal.dict [("found", PyVal.b true), ("index", PyVal.i 4)])],
   [("data", PyVal.list ([1, 3, 5, 7, 9].map (fun n => PyVal.v (Val.int n)))),
    ("target", PyVal.v (Val.int 4)),
    ("expected", PyVal.dict [("found", PyVal.b false), ("index", PyVal.i (-1))])],
   [("data", PyVal.list []),
    ("target", PyVal.v (Val.int 5)),
    ("expected", PyVal.dict [("found", PyVal.b false), ("index", PyVal.i (-1))])],
   [("data", PyVal.list [PyVal.v (Val.int 5)]),
    ("target", PyVal.v (Val.int 5)),
    ("expected", PyVal.dict [("found", PyVal.b true), ("index", PyVal.i 0)])],
   [("data", PyVal.list [PyVal.v (Val.int 5)]),
    ("target", PyVal.v (Val.int 3)),
    ("expected", PyVal.dict [("found", PyVal.b false), ("index", PyVal.i (-1))])],
   [("data", PyVal.list ([1, 2, 3, 4, 5, 6, 7, 8, 9, 10].map (fun n => PyVal.v (Val.int n)))),
    ("target", PyVal.v (Val.int 7)),
    ("expected", PyVal.dict [("found", PyVal.b true), ("index", PyVal.i 6)])],
   [("data", PyVal.list ([1, 2, 3, 4, 5, 6, 7, 8, 9, 10].map (fun n => PyVal.v (Val.int n)))),
    ("target", PyVal.v (Val.int 11)),
    ("expected", PyVal.dict [("found", PyVal.b false), ("index", PyVal.i (-1))])],
   [("data", PyVal.list ([1, 2, 2, 2, 5].map (fun n => PyVal.v (Val.int n)))),
    ("target", PyVal.v (Val.int 2)),
    ("expected", PyVal.dict [("found", PyVal.b true), ("index", PyVal.i 1)])]]

/-- The result of `execute([], 5, track_steps=False)`. -/
def emptyRunUntracked : BinarySearchResult := ⟨false, -1, [], 0⟩

/-- The result of `execute([], 5, track_steps=True)`: the stamped `init`
event followed by the stamped empty-array `eliminate` event. -/
def emptyRunTracked : BinarySearchResult :=
  ⟨false, -1,
   [[("type", PyVal.s "init"),
     ("indices", PyVal.list []),
     ("metadata", PyVal.dict
       [("target", PyVal.v (Val.int 5)), ("arrayLength", PyVal.i 0),
        ("algorithm", PyVal.s "binary-search"), ("language", PyVal.s "python")]),
     ("description",
      PyVal.s "Initialize binary search for target 5 in sorted array of 0 elements"),
     ("operationCount", PyVal.i 1)],
    [("type", PyVal.s "eliminate"),
     ("indices", PyVal.list []),
     ("metadata", PyVal.dict
       [("found", PyVal.b false), ("reason", PyVal.s "empty-array")]),
     ("description", PyVal.s "Array is empty - target cannot be found"),
     ("operationCount", PyVal.i 2)]], 0⟩

/-! ## Derived predicates and probe sequence -/

/-- Every event in the log carries `operationCount` equal to its 1-based
position. -/
def Numbered (steps : List StepDict) : Prop :=
  ∀ k (hk : k < steps.length),
    lookupKey (steps.get ⟨k, hk⟩) "operationCount" = some (PyVal.i (k + 1))

/-- The key sequence every trace event ends up with: the four literal keys of
each event dict, plus the appended stamp. -/
def stepKeys : List String :=
  ["type", "indices", "metadata", "description", "operationCount"]

/-- Every event in the log carries exactly the five standard keys, in
insertion order. -/
def KeysOK (steps : List StepDict) : Prop :=
  ∀ d ∈ steps, d.map Prod.fst = stepKeys

/-- A permissible final trace event: a `found` event, or an `eliminate`
event that is either the exhausted-search event (`searchExhausted=true`) or
the empty-array event (`reason="empty-array"`). -/
def TerminalStep (d : StepDict) : Prop :=
  lookupKey d "type" = some (PyVal.s "found") ∨
    (lookupKey d "type" = some (PyVal.s "eliminate") ∧
      ∃ m, lookupKey d "metadata" = some (PyVal.dict m) ∧
        (lookupKey m "searchExhausted" = some (PyVal.b true) ∨
         lookupKey m "reason" = some (PyVal.s "empty-array")))

/-- `pat` occurs as a contiguous run inside `l`. -/
def hasSubSeq (pat : List Char) : List Char → Bool
  | [] => pat.isPrefixOf []
  | a :: t => pat.isPrefixOf (a :: t) || hasSubSeq pat t

/-- `pat` occurs as a substring of `s`. -/
def strContainsSub (s pat : String) : Bool :=
  hasSubSeq pat.data s.data

/-- The midpoints the loop inspects, in order, for a given start state. -/
def probes (data : List Val) (target : Val) (left right : Int) : List Int :=
  if left ≤ right then
    midpoint left right ::
      (if (getAt data (midpoint left right)).eqb target then []
       else if (getAt data (midpoint left right)).lt target then
         probes data target (midpoint left right + 1) right
       else probes data target left (midpoint left right - 1))
  else []
termination_by (right + 1 - left).toNat
decreasing_by
  · have h : midpoint left right = (left + right) / 2 := Int.fdiv_eq_ediv _ (by norm_num)
    omega
  · have h : midpoint left right = (left + right) / 2 := Int.fdiv_eq_ediv _ (by norm_num)
    omega

/-! ## Helper lemmas -/

theorem midpoint_eq_ediv (l r : Int) : midpoint l r = (l + r) / 2 :=
  Int.fdiv_eq_ediv _ (by norm_num)


theorem midpoint_bounds {l r : Int} (h : l ≤ r) :
    l ≤ midpoint l r ∧ midpoint l r ≤ r := by
  have := midpoint_eq_ediv l r
  omega

theorem core_steps_false (data : List Val) (target : Val) (left right : Int)
    (s : List StepDict) (c : Nat) :
    (_binary_search_core data target false left right s c).steps = s := by
  rw [_binary_search_core.eq_def]
  simp only [Bool.false_eq_true, if_false]
  split
  · split
    · rfl
    · split
      · exact core_steps_false data target _ right s _
      · exact core_steps_false data target left _ s _
  · rfl
termination_by (right + 1 - left).toNat
decreasing_by
  · have h : midpoint left right = (left + right) / 2 := Int.fdiv_eq_ediv _ (by norm_num)
    omega
  · have h : midpoint left right = (left + right) / 2 := Int.fdiv_eq_ediv _ (by norm_num)
    omega

theorem core_track_irrelevant (data : List Val) (target : Val) (left right : Int)
    (st sf : List StepDict) (c : Nat) :
    (_binary_search_core data target true left right st c).found =
      (_binary_search_core data target false left right sf c).found ∧
    (_binary_search_core data target true left right st c).index =
      (_binary_search_core data target false left right sf c).index ∧
    (_binary_search_core data target true left right st c).comparisons =
      (_binary_search_core data target false left right sf c).comparisons := by
  rw [_binary_search_core.eq_def data target true left right st c,
    _binary_search_core.eq_def data target false left right sf c]
  simp only [Bool.false_eq_true, if_false, if_true]
  split
  · split
    · exact ⟨rfl, rfl, rfl⟩
    · split
      · exact core_track_irrelevant data target _ right _ _ _
      · exact core_track_irrelevant data target left _ _ _ _
  · exact ⟨rfl, rfl, rfl⟩
termination_by (right + 1 - left).toNat
decreasing_by
  · have h : midpoint left right = (left + right) / 2 := Int.fdiv_eq_ediv _ (by norm_num)
    omega
  · have h : midpoint left right = (left + right) / 2 := Int.fdiv_eq_ediv _ (by norm_num)
    omega

theorem core_comparisons_ge (data : List Val) (target : Val) (left right : Int)
    (s : List StepDict) (c : Nat) :
    c ≤ (_binary_search_core data target false left right s c).comparisons := by
  rw [_binary_search_core.eq_def]
  simp only [Bool.false_eq_true, if_false]
  split
  · split
    · exact Nat.le_succ c
    · split
      · exact le_trans (Nat.le_succ c) (core_comparisons_ge data target _ right _ _)
      · exact le_trans (Nat.le_succ c) (core_comparisons_ge data target left _ _ _)
  · exact le_rfl
termination_by (right + 1 - left).toNat
decreasing_by
  · have h : midpoint left right = (left + right) / 2 := Int.fdiv_eq_ediv _ (by norm_num)
    omega
  · have h : midpoint left right = (left + right) / 2 := Int.fdiv_eq_ediv _ (by norm_num)
    omega

theorem core_comparisons_pos (data : List Val) (target : Val) (left right : Int)
    (s : List StepDict) (c : Nat) (hlr : left ≤ right) :
    c + 1 ≤ (_binary_search_core data target false left right s c).comparisons := by
  rw [_binary_search_core.eq_def]
  rw [dif_pos hlr]
  simp only [Bool.false_eq_true, if_false]
  split
  · exact le_rfl
  · split
    · exact core_comparisons_ge data target _ right _ _
    · exact core_comparisons_ge data target left _ _ _

theorem core_comparisons_le (data : List Val) (target : Val) (left right : Int)
    (s : List StepDict) (c : Nat) :
    (_binary_search_core data target false left right s c).comparisons ≤
      c + Nat.clog 2 ((right + 1 - left).toNat + 1) := by
  rw [_binary_search_core.eq_def]
  simp only [Bool.false_eq_true, if_false]
  split
  case isTrue hlr =>
    have hm := midpoint_eq_ediv left right
    have hclog : Nat.clog 2 ((right + 1 - left).toNat + 1) =
        Nat.clog 2 ((right + 1 - left).toNat / 2 + 1) + 1 := by
      rw [Nat.clog_of_two_le one_lt_two (by omega)]
      have harg : ((right + 1 - left).toNat + 1 + 2 - 1) / 2 =
          (right + 1 - left).toNat / 2 + 1 := by omega
      rw [harg]
    split
    · show c + 1 ≤ c + Nat.clog 2 ((right + 1 - left).toNat + 1)
      omega
    · split
      · have ih := core_comparisons_le data target (midpoint left right + 1) right s (c + 1)
        have hmono : Nat.clog 2 ((right + 1 - (midpoint left right + 1)).toNat + 1) ≤
            Nat.clog 2 ((right + 1 - left).toNat / 2 + 1) :=
          Nat.clog_mono_right 2 (by omega)
        omega
      · have ih := core_comparisons_le data target left (midpoint left right - 1) s (c + 1)
        have hmono : Nat.clog 2 ((midpoint left right - 1 + 1 - left).toNat + 1) ≤
            Nat.clog 2 ((right + 1 - left).toNat / 2 + 1) :=
          Nat.clog_mono_right 2 (by omega)
        omega
  case isFalse hlr =>
    exact Nat.le_add_right c _
termination_by (right + 1 - left).toNat
decreasing_by
  · have h : midpoint left right = (left + right) / 2 := Int.fdiv_eq_ediv _ (by norm_num)
    omega
  · have h : midpoint left right = (left + right) / 2 := Int.fdiv_eq_ediv _ (by norm_num)
    omega

theorem getAt_map_int (l : List Int) (i : Int) (h0 : 0 ≤ i) (h : i.toNat < l.length) :
    getAt (l.map Val.int) i = Val.int (l.getD i.toNat 0) := by
  unfold getAt
  rw [List.getD_eq_getElem _ _ (by simpa using h), List.getElem_map,
    List.getD_eq_getElem _ _ h]

theorem int_eqb_iff (a b : Int) : (Val.int a).eqb (Val.int b) = true ↔ a = b := by
  simp [Val.eqb]

theorem int_lt_iff (a b : Int) : (Val.int a).lt (Val.int b) = true ↔ a < b := by
  simp [Val.lt]

theorem check_sorted_int (l : List Int) (i : Nat) (h : l.Chain' (· ≤ ·)) :
    _check_sorted (l.map Val.int) i = .ok () := by
  match l with
  | [] => rfl
  | [a] => rfl
  | a :: b :: rest =>
    have hab : a ≤ b := (List.chain'_cons.mp h).1
    show _check_sorted (Val.int a :: Val.int b :: rest.map Val.int) i = .ok ()
    rw [_check_sorted]
    simp only [show (Val.int b).lt (Val.int a) = false from by simp [Val.lt]; omega,
      Bool.false_eq_true, if_false]
    exact check_sorted_int (b :: rest) (i + 1) (List.chain'_cons.mp h).2

theorem check_finite_int (l : List Int) (i : Nat) :
    _check_finite (l.map Val.int) i = .ok () := by
  match l with
  | [] => rfl
  | a :: rest =>
    show _check_finite (Val.int a :: rest.map Val.int) i = .ok ()
    rw [_check_finite]
    simp only [Val.isFinite, Bool.not_true, Bool.false_eq_true, if_false]
    exact check_finite_int rest (i + 1)

theorem validate_int (l : List Int) (t : Int) (h : l.Chain' (· ≤ ·)) :
    _validate_input (l.map Val.int) (Val.int t) = .ok () := by
  unfold _validate_input
  rw [check_sorted_int l 0 h]
  simp only [Val.isFinite, Bool.not_true, Bool.false_eq_true, if_false]
  exact check_finite_int l 0

theorem core_found_correct (l : List Int) (t : Int) (left right : Int)
    (s : List StepDict) (c : Nat)
    (hsort : ∀ i j : Nat, i ≤ j → j < l.length → l.getD i 0 ≤ l.getD j 0)
    (h0 : 0 ≤ left) (hr : right < (l.length : Int))
    (hL : ∀ i : Nat, (i : Int) < left → i < l.length → l.getD i 0 < t)
    (hR : ∀ i : Nat, right < (i : Int) → i < l.length → t < l.getD i 0) :
    ((_binary_search_core (l.map Val.int) (Val.int t) false left right s c).found = true →
      ∃ j : Nat, j < l.length ∧
        (_binary_search_core (l.map Val.int) (Val.int t) false left right s c).index = (j : Int) ∧
        l.getD j 0 = t) ∧
    ((_binary_search_core (l.map Val.int) (Val.int t) false left right s c).found = false →
      (_binary_search_core (l.map Val.int) (Val.int t) false left right s c).index = -1 ∧
      ∀ i : Nat, i < l.length → l.getD i 0 ≠ t) := by
  rw [_binary_search_core.eq_def]
  simp only [Bool.false_eq_true, if_false]
  split
  case isTrue hlr =>
    have hm := midpoint_eq_ediv left right
    have hmid0 : 0 ≤ midpoint left right := by omega
    have hmidlen : (midpoint left right).toNat < l.length := by omega
    have hget : getAt (l.map Val.int) (midpoint left right) =
        Val.int (l.getD (midpoint left right).toNat 0) :=
      getAt_map_int l _ hmid0 hmidlen
    split
    case isTrue heq =>
      rw [hget] at heq
      rw [int_eqb_iff] at heq
      constructor
      · intro _
        exact ⟨(midpoint left right).toNat, hmidlen,
          (Int.toNat_of_nonneg hmid0).symm, heq⟩
      · intro hf
        exact Bool.noConfusion hf
    case isFalse heq =>
      rw [hget] at heq
      split
      case isTrue hlt =>
        rw [hget, int_lt_iff] at hlt
        exact core_found_correct l t (midpoint left right + 1) right s (c + 1) hsort
          (by omega) hr
          (fun i hi hilen => lt_of_le_of_lt
            (hsort i (midpoint left right).toNat (by omega) hmidlen) hlt)
          hR
      case isFalse hlt =>
        rw [hget, int_lt_iff] at hlt
        have hgt : t < l.getD (midpoint left right).toNat 0 := by
          rw [int_eqb_iff] at heq
          omega
        exact core_found_correct l t left (midpoint left right - 1) s (c + 1) hsort
          h0 (by omega) hL
          (fun i hi hilen => lt_of_lt_of_le hgt
            (hsort (midpoint left right).toNat i (by omega) hilen))
  case isFalse hlr =>
    constructor
    · intro hf
      exact Bool.noConfusion hf
    · intro _
      refine ⟨rfl, fun i hilen => ?_⟩
      by_cases hi : (i : Int) < left
      · exact ne_of_lt (hL i hi hilen)
      · exact (ne_of_lt (hR i (by omega) hilen)).symm
termination_by (right + 1 - left).toNat
decreasing_by
  · have h : midpoint left right = (left + right) / 2 := Int.fdiv_eq_ediv _ (by norm_num)
    omega
  · have h : midpoint left right = (left + right) / 2 := Int.fdiv_eq_ediv _ (by norm_num)
    omega

/-! ## Trace-log invariants -/

theorem numbered_nil : Numbered [] := fun _ hk => absurd hk (by simp)

theorem lookupKey_append (d e : StepDict) (k : String) :
    lookupKey (d ++ e) k = (lookupKey d k).or (lookupKey e k) := by
  unfold lookupKey
  rw [List.find?_append]
  cases d.find? (fun p => p.1 == k) <;> simp

theorem numbered_add_step {s : List StepDict} {d : StepDict} (hs : Numbered s)
    (hd : lookupKey d "operationCount" = none) : Numbered (_add_step s d) := by
  intro k hk
  have hk' : k < s.length + 1 := by
    simpa [_add_step] using hk
  rcases Nat.lt_or_ge k s.length with h | h
  · rw [List.get_eq_getElem]
    show lookupKey ((s ++ [_])[k]) "operationCount" = _
    rw [List.getElem_append_left h]
    exact hs k h
  · have hke : k = s.length := by omega
    subst hke
    rw [List.get_eq_getElem]
    show lookupKey ((s ++ [_])[s.length]) "operationCount" = _
    rw [List.getElem_append_right (le_refl _)]
    simp only [Nat.sub_self]
    rw [List.getElem_cons_zero, lookupKey_append, hd]
    simp [lookupKey]

theorem keysOK_nil : KeysOK [] := fun _ h => absurd h (by simp)

theorem keysOK_add_step {s : List StepDict} {d : StepDict} (hs : KeysOK s)
    (hd : d.map Prod.fst = ["type", "indices", "metadata", "description"]) :
    KeysOK (_add_step s d) := by
  intro e he
  unfold _add_step at he
  rcases List.mem_append.mp he with h | h
  · exact hs e h
  · have he' : e = d ++ [("operationCount", PyVal.i (s.length + 1))] := by
      simpa using h
    subst he'
    rw [List.map_append, hd]
    rfl

/-! ## Execution characterization -/


theorem core_numbered (data : List Val) (target : Val) (left right : Int)
    (s : List StepDict) (c : Nat) (hs : Numbered s) :
    Numbered (_binary_search_core data target true left right s c).steps := by
  rw [_binary_search_core.eq_def]
  simp only [eq_self_iff_true, if_true]
  split
  · split
    · exact numbered_add_step
        (numbered_add_step
          (numbered_add_step (numbered_add_step hs (by simp [lookupKey]))
            (by simp [lookupKey]))
          (by simp [lookupKey]))
        (by simp [lookupKey])
    · split
      · exact core_numbered data target _ right _ _
          (numbered_add_step
            (numbered_add_step
              (numbered_add_step (numbered_add_step hs (by simp [lookupKey]))
                (by simp [lookupKey]))
              (by simp [lookupKey]))
            (by simp [lookupKey]))
      · exact core_numbered data target left _ _ _
          (numbered_add_step
            (numbered_add_step
              (numbered_add_step (numbered_add_step hs (by simp [lookupKey]))
                (by simp [lookupKey]))
              (by simp [lookupKey]))
            (by simp [lookupKey]))
  · exact numbered_add_step hs (by simp [lookupKey])
termination_by (right + 1 - left).toNat
decreasing_by
  · have h : midpoint left right = (left + right) / 2 := Int.fdiv_eq_ediv _ (by norm_num)
    omega
  · have h : midpoint left right = (left + right) / 2 := Int.fdiv_eq_ediv _ (by norm_num)
    omega

theorem core_keysOK (data : List Val) (target : Val) (left right : Int)
    (s : List StepDict) (c : Nat) (hs : KeysOK s) :
    KeysOK (_binary_search_core data target true left right s c).steps := by
  rw [_binary_search_core.eq_def]
  simp only [eq_self_iff_true, if_true]
  split
  · split
    · exact keysOK_add_step
        (keysOK_add_step
          (keysOK_add_step (keysOK_add_step hs rfl) rfl) rfl) rfl
    · split
      · exact core_keysOK data target _ right _ _
          (keysOK_add_step
            (keysOK_add_step
              (keysOK_add_step (keysOK_add_step hs rfl) rfl) rfl) rfl)
      · exact core_keysOK data target left _ _ _
          (keysOK_add_step
            (keysOK_add_step
              (keysOK_add_step (keysOK_add_step hs rfl) rfl) rfl) rfl)
  · exact keysOK_add_step hs rfl
termination_by (right + 1 - left).toNat
decreasing_by
  · have h : midpoint left right = (left + right) / 2 := Int.fdiv_eq_ediv _ (by norm_num)
    omega
  · have h : midpoint left right = (left + right) / 2 := Int.fdiv_eq_ediv _ (by norm_num)
    omega

theorem getLast?_add_step (s : List StepDict) (d : StepDict) :
    (_add_step s d).getLast? = some (d ++ [("operationCount", PyVal.i (s.length + 1))]) := by
  unfold _add_step
  exact List.getLast?_concat _

theorem core_last_terminal (data : List Val) (target : Val) (left right : Int)
    (s : List StepDict) (c : Nat) :
    ∃ d, (_binary_search_core data target true left right s c).steps.getLast? = some d ∧
      TerminalStep d := by
  rw [_binary_search_core.eq_def]
  simp only [eq_self_iff_true, if_true]
  split
  · split
    · exact ⟨_, getLast?_add_step _ _,
        Or.inl (by rw [lookupKey_append]; simp [lookupKey])⟩
    · split
      · exact core_last_terminal data target _ right _ _
      · exact core_last_terminal data target left _ _ _
  · refine ⟨_, getLast?_add_step _ _, Or.inr ⟨?_, ?_⟩⟩
    · rw [lookupKey_append]
      simp [lookupKey]
    · refine ⟨[("found", PyVal.b false), ("totalComparisons", PyVal.i c),
        ("searchExhausted", PyVal.b true),
        ("finalLeft", PyVal.i left), ("finalRight", PyVal.i right)], ?_, Or.inl ?_⟩
      · rw [lookupKey_append]
        simp [lookupKey]
      · simp [lookupKey]
termination_by (right + 1 - left).toNat
decreasing_by
  · have h : midpoint left right = (left + right) / 2 := Int.fdiv_eq_ediv _ (by norm_num)
    omega
  · have h : midpoint left right = (left + right) / 2 := Int.fdiv_eq_ediv _ (by norm_num)
    omega

theorem execute_valid (data : List Val) (target : Val) (track : Bool)
    (hv : _validate_input data target = .ok ()) (hlen : data.length ≠ 0) :
    execute data target track = .ok
      ⟨(_binary_search_core data target track 0 ((data.length : Int) - 1)
          (if track then _add_step []
            [("type", PyVal.s "init"),
             ("indices", PyVal.list []),
             ("metadata", PyVal.dict
               [("target", PyVal.v target), ("arrayLength", PyVal.i data.length),
                ("algorithm", PyVal.s "binary-search"), ("language", PyVal.s "python")]),
             ("description", PyVal.s ("Initialize binary search for target " ++
               target.toStr ++ " in sorted array of " ++ toString data.length ++
               " elements"))]
           else []) 0).found,
       (_binary_search_core data target track 0 ((data.length : Int) - 1)
          (if track then _add_step []
            [("type", PyVal.s "init"),
             ("indices", PyVal.list []),
             ("metadata", PyVal.dict
               [("target", PyVal.v target), ("arrayLength", PyVal.i data.length),
                ("algorithm", PyVal.s "binary-search"), ("language", PyVal.s "python")]),
             ("description", PyVal.s ("Initialize binary search for target " ++
               target.toStr ++ " in sorted array of " ++ toString data.length ++
               " elements"))]
           else []) 0).index,
       (_binary_search_core data target track 0 ((data.length : Int) - 1)
          (if track then _add_step []
            [("type", PyVal.s "init"),
             ("indices", PyVal.list []),
             ("metadata", PyVal.dict
               [("target", PyVal.v target), ("arrayLength", PyVal.i data.length),
                ("algorithm", PyVal.s "binary-search"), ("language", PyVal.s "python")]),
             ("description", PyVal.s ("Initialize binary search for target " ++
               target.toStr ++ " in sorted array of " ++ toString data.length ++
               " elements"))]
           else []) 0).steps,
       (_binary_search_core data target track 0 ((data.length : Int) - 1)
          (if track then _add_step []
            [("type", PyVal.s "init"),
             ("indices", PyVal.list []),
             ("metadata", PyVal.dict
               [("target", PyVal.v target), ("arrayLength", PyVal.i data.length),
                ("algorithm", PyVal.s "binary-search"), ("language", PyVal.s "python")]),
             ("description", PyVal.s ("Initialize binary search for target " ++
               target.toStr ++ " in sorted array of " ++ toString data.length ++
               " elements"))]
           else []) 0).comparisons⟩ := by
  unfold execute
  rw [hv]
  simp only [if_neg hlen]

theorem execute_empty (target : Val) (track : Bool)
    (ht : target.isFinite = true) :
    execute [] target track = .ok
      ⟨false, -1,
       (if track then
          _add_step (if track then _add_step []
            [("type", PyVal.s "init"),
             ("indices", PyVal.list []),
             ("metadata", PyVal.dict
               [("target", PyVal.v target), ("arrayLength", PyVal.i 0),
                ("algorithm", PyVal.s "binary-search"), ("language", PyVal.s "python")]),
             ("description", PyVal.s ("Initialize binary search for target " ++
               target.toStr ++ " in sorted array of " ++ toString 0 ++
               " elements"))] else [])
            [("type", PyVal.s "eliminate"),
             ("indices", PyVal.list []),
             ("metadata", PyVal.dict
               [("found", PyVal.b false), ("reason", PyVal.s "empty-array")]),
             ("description", PyVal.s "Array is empty - target cannot be found")]
        else []), 0⟩ := by
  unfold execute _validate_input
  cases track <;> rw [ht] <;> rfl

/-! ## Substring occurrence (for claims about message contents) -/

theorem hasSubSeq_append_left (x : List Char) {y pat : List Char}
    (h : hasSubSeq pat y = true) : hasSubSeq pat (x ++ y) = true := by
  induction x with
  | nil => simpa using h
  | cons a t ih =>
    show (pat.isPrefixOf (a :: (t ++ y)) || hasSubSeq pat (t ++ y)) = true
    rw [ih]
    simp

theorem hasSubSeq_self_append (pat z : List Char) :
    hasSubSeq pat (pat ++ z) = true := by
  have hp : pat.isPrefixOf (pat ++ z) = true :=
    List.isPrefixOf_iff_prefix.mpr (List.prefix_append pat z)
  cases hpz : pat ++ z with
  | nil =>
    rw [hpz] at hp
    simpa [hasSubSeq] using hp
  | cons a t =>
    rw [hpz] at hp
    show (pat.isPrefixOf (a :: t) || hasSubSeq pat t) = true
    rw [hp]
    simp

theorem strContainsSub_mid (a b c : String) :
    strContainsSub (a ++ b ++ c) b = true := by
  unfold strContainsSub
  rw [String.data_append, String.data_append, List.append_assoc]
  exact hasSubSeq_append_left a.data (hasSubSeq_self_append b.data c.data)

theorem strContainsSub_right (a b : String) :
    strContainsSub (a ++ b) b = true := by
  unfold strContainsSub
  rw [String.data_append]
  exact hasSubSeq_append_left a.data
    (by simpa using hasSubSeq_self_append b.data [])

/-! ## Validation error characterization -/

theorem check_finite_first_err (l : List Val) (k i : Nat) (hi : i < l.length)
    (hbad : (l.getD i (Val.int 0)).isFinite = false)
    (hgood : ∀ j, j < i → (l.getD j (Val.int 0)).isFinite = true) :
    _check_finite l k = .error ("Array element at index " ++ toString (k + i) ++
      " must be a finite number, got: " ++ (l.getD i (Val.int 0)).toStr) := by
  match l, i with
  | v :: rest, 0 =>
    rw [_check_finite]
    have hb : v.isFinite = false := hbad
    rw [hb]
    rfl
  | v :: rest, i' + 1 =>
    rw [_check_finite]
    have hg : v.isFinite = true := hgood 0 (Nat.succ_pos i')
    rw [hg]
    show _check_finite rest (k + 1) = _
    have ih := check_finite_first_err rest (k + 1) i' (by simpa using hi) hbad
      (fun j hj => hgood (j + 1) (by omega))
    rw [ih]
    have harg : k + 1 + i' = k + (i' + 1) := by omega
    rw [harg, List.getD_cons_succ]

/-! ## The sequence of probed midpoints -/

/-- When the untracked core reports `found`, the reported index is the first
probed midpoint whose element compares equal to the target. -/
theorem core_first_probe (data : List Val) (target : Val) (left right : Int)
    (s : List StepDict) (c : Nat)
    (hf : (_binary_search_core data target false left right s c).found = true) :
    (probes data target left right).find?
        (fun m => (getAt data m).eqb target) =
      some (_binary_search_core data target false left right s c).index := by
  rw [_binary_search_core.eq_def] at hf ⊢
  rw [probes]
  simp only [Bool.false_eq_true, if_false] at hf ⊢
  split
  case isTrue hlr =>
    rw [dif_pos hlr] at hf
    split
    case isTrue heq =>
      rw [List.find?_cons]
      simp only [heq]
    case isFalse heq =>
      rw [if_neg heq] at hf
      rw [List.find?_cons]
      simp only [heq]
      split
      case isTrue hlt =>
        rw [if_pos hlt] at hf
        exact core_first_probe data target _ right s (c + 1) hf
      case isFalse hlt =>
        rw [if_neg hlt] at hf
        exact core_first_probe data target left _ s (c + 1) hf
  case isFalse hlr =>
    rw [dif_neg hlr] at hf
    exact Bool.noConfusion hf
termination_by (right + 1 - left).toNat
decreasing_by
  · have h : midpoint left right = (left + right) / 2 := Int.fdiv_eq_ediv _ (by norm_num)
    omega
  · have h : midpoint left right = (left + right) / 2 := Int.fdiv_eq_ediv _ (by norm_num)
    omega

/-! ## Claims -/


/-- C1: For every non-decreasing sequence of finite numbers (modelled as a
sorted list of integers) and every finite target, if the target occurs in the
sequence then `binary_search` returns an index holding the target, and if it
does not occur then `binary_search` returns -1. -/
theorem C1_search_correct (l : List Int) (t : Int) (hs : l.Chain' (· ≤ ·)) :
    (t ∈ l → ∃ j : Nat, j < l.length ∧
      binary_search (l.map Val.int) (Val.int t) = .ok (j : Int) ∧ l.getD j 0 = t) ∧
    (t ∉ l → binary_search (l.map Val.int) (Val.int t) = .ok (-1)) := by
  have hv := validate_int l t hs
  by_cases hlen : l.length = 0
  · rw [List.length_eq_zero] at hlen
    subst hlen
    refine ⟨fun hmem => absurd hmem (List.not_mem_nil t), fun _ => rfl⟩
  · have hsort : ∀ i j : Nat, i ≤ j → j < l.length → l.getD i 0 ≤ l.getD j 0 := by
      have hp : l.Pairwise (· ≤ ·) := List.chain'_iff_pairwise.mp hs
      intro i j hij hj
      rcases Nat.lt_or_ge i j with h | h
      · rw [List.getD_eq_getElem l 0 (lt_trans h hj), List.getD_eq_getElem l 0 hj]
        exact List.pairwise_iff_getElem.mp hp i j _ _ h
      · have hij' : i = j := by omega
        subst hij'
        exact le_refl _
    have hlen' : (l.map Val.int).length ≠ 0 := by simpa using hlen
    have hexec := execute_valid (l.map Val.int) (Val.int t) false hv hlen'
    simp only [Bool.false_eq_true, if_false, List.length_map] at hexec
    have hcore := core_found_correct l t 0 ((l.length : Int) - 1) [] 0 hsort
      (le_refl 0) (by omega)
      (fun i hi _ => absurd hi (by omega))
      (fun i hi hilen => absurd hi (by omega))
    cases hfound : (_binary_search_core (l.map Val.int) (Val.int t) false 0
        ((l.length : Int) - 1) [] 0).found
    · obtain ⟨hidx, hall⟩ := hcore.2 hfound
      constructor
      · intro hmem
        obtain ⟨n, hn, hval⟩ := List.mem_iff_getElem.mp hmem
        rw [← List.getD_eq_getElem l 0 hn] at hval
        exact absurd hval (hall n hn)
      · intro _
        unfold binary_search
        rw [hexec]
        show Except.ok (_binary_search_core (l.map Val.int) (Val.int t) false 0
          ((l.length : Int) - 1) [] 0).index = _
        rw [hidx]
    · obtain ⟨j, hj, hidx, hval⟩ := hcore.1 hfound
      constructor
      · intro _
        refine ⟨j, hj, ?_, hval⟩
        unfold binary_search
        rw [hexec]
        show Except.ok (_binary_search_core (l.map Val.int) (Val.int t) false 0
          ((l.length : Int) - 1) [] 0).index = _
        rw [hidx]
      · intro hmem
        exact absurd (List.mem_iff_getElem.mpr
          ⟨j, hj, by rw [← List.getD_eq_getElem l 0 hj]; exact hval⟩) hmem

theorem valid_target_finite {data : List Val} {target : Val}
    (hv : _validate_input data target = .ok ()) : target.isFinite = true := by
  by_contra hc
  rw [Bool.not_eq_true] at hc
  unfold _validate_input at hv
  rw [hc] at hv
  exact absurd hv (by simp)

/-- C2: For the same sequence and target, running the search with tracing
disabled yields exactly the same found flag, index, and comparison count as
running it with tracing enabled; with tracing disabled the returned trace is
empty. -/
theorem C2_tracing_toggle (data : List Val) (target : Val) (r r' : BinarySearchResult)
    (hf : execute data target false = .ok r) (ht : execute data target true = .ok r') :
    r.found = r'.found ∧ r.index = r'.index ∧ r.comparisons = r'.comparisons ∧
      r.steps = [] := by
  cases hv : _validate_input data target with
  | error e =>
    unfold execute at hf
    rw [hv] at hf
    exact absurd hf (by simp)
  | ok u =>
    cases u
    by_cases hlen : data.length = 0
    · rw [List.length_eq_zero] at hlen
      subst hlen
      have htf := valid_target_finite hv
      rw [execute_empty target false htf] at hf
      rw [execute_empty target true htf] at ht
      injection hf with hf
      injection ht with ht
      subst hf
      subst ht
      exact ⟨rfl, rfl, rfl, rfl⟩
    · have hf' := execute_valid data target false hv hlen
      have ht' := execute_valid data target true hv hlen
      rw [hf'] at hf
      rw [ht'] at ht
      injection hf with hf
      injection ht with ht
      subst hf
      subst ht
      refine ⟨?_, ?_, ?_, ?_⟩
      · exact (core_track_irrelevant data target 0 ((data.length : Int) - 1) _ _ 0).1.symm
      · exact (core_track_irrelevant data target 0 ((data.length : Int) - 1) _ _ 0).2.1.symm
      · exact (core_track_irrelevant data target 0 ((data.length : Int) - 1) _ _ 0).2.2.symm
      · exact core_steps_false data target 0 ((data.length : Int) - 1) _ 0

/-- C3: For every valid input sequence of length n (any tracing mode), the
comparison count in the result is at most ceil(log2(n+1)) (`Nat.clog 2 (n+1)`)
and at least 1 whenever n > 0, in both the found and the exhausted case. -/
theorem C3_comparison_bound (data : List Val) (target : Val) (track : Bool)
    (r : BinarySearchResult) (h : execute data target track = .ok r) :
    r.comparisons ≤ Nat.clog 2 (data.length + 1) ∧
      (0 < data.length → 1 ≤ r.comparisons) := by
  cases hv : _validate_input data target with
  | error e =>
    unfold execute at h
    rw [hv] at h
    exact absurd h (by simp)
  | ok u =>
    cases u
    by_cases hlen : data.length = 0
    · rw [List.length_eq_zero] at hlen
      subst hlen
      have htf := valid_target_finite hv
      rw [execute_empty target track htf] at h
      injection h with h
      subst h
      exact ⟨Nat.zero_le _, fun hpos => absurd hpos (by simp)⟩
    · have h' := execute_valid data target track hv hlen
      rw [h'] at h
      injection h with h
      subst h
      have hcmp : ∀ s0 : List StepDict,
          (_binary_search_core data target track 0 ((data.length : Int) - 1) s0 0).comparisons =
          (_binary_search_core data target false 0 ((data.length : Int) - 1) [] 0).comparisons := by
        intro s0
        cases track
        · calc (_binary_search_core data target false 0 ((data.length : Int) - 1) s0 0).comparisons
              = (_binary_search_core data target true 0 ((data.length : Int) - 1) [] 0).comparisons :=
                ((core_track_irrelevant data target 0 ((data.length : Int) - 1) [] s0 0).2.2).symm
            _ = (_binary_search_core data target false 0 ((data.length : Int) - 1) [] 0).comparisons :=
                (core_track_irrelevant data target 0 ((data.length : Int) - 1) [] [] 0).2.2
        · exact (core_track_irrelevant data target 0 ((data.length : Int) - 1) s0 [] 0).2.2
      dsimp only
      rw [hcmp]
      constructor
      · have hle := core_comparisons_le data target 0 ((data.length : Int) - 1) [] 0
        have harg : (((data.length : Int) - 1) + 1 - 0).toNat = data.length := by omega
        rw [harg] at hle
        simpa using hle
      · intro hpos
        have hge := core_comparisons_pos data target 0 ((data.length : Int) - 1) [] 0 (by omega)
        simpa using hge

/-- C4: For every finite target, searching the empty sequence returns
found=false, index=-1 and zero comparisons, short-circuiting before the loop;
with tracing enabled the trace is just the init event plus a single eliminate
event whose metadata reason is "empty-array". -/
theorem C4_empty_sequence (target : Val) (ht : target.isFinite = true) :
    (∃ r, execute [] target true = .ok r ∧
      r.found = false ∧ r.index = -1 ∧ r.comparisons = 0 ∧
      r.steps.length = 2 ∧
      (r.steps.filter (fun d =>
        match lookupKey d "type" with
        | some (PyVal.s k) => k == "eliminate"
        | _ => false)).length = 1 ∧
      ∃ d, r.steps.getLast? = some d ∧
        lookupKey d "type" = some (PyVal.s "eliminate") ∧
        ∃ m, lookupKey d "metadata" = some (PyVal.dict m) ∧
          lookupKey m "reason" = some (PyVal.s "empty-array")) ∧
    binary_search [] target = .ok (-1) := by
  refine ⟨⟨_, execute_empty target true ht, rfl, rfl, rfl, rfl, ?_, ?_⟩, ?_⟩
  · rfl
  · exact ⟨[("type", PyVal.s "eliminate"), ("indices", PyVal.list []),
      ("metadata", PyVal.dict [("found", PyVal.b false), ("reason", PyVal.s "empty-array")]),
      ("description", PyVal.s "Array is empty - target cannot be found"),
      ("operationCount", PyVal.i 2)], rfl, rfl,
      [("found", PyVal.b false), ("reason", PyVal.s "empty-array")], rfl, rfl⟩
  · unfold binary_search
    rw [execute_empty target false ht]

/-- C5: In every trace produced with tracing enabled, the events'
`operationCount` stamps form the unbroken ascending run 1, 2, 3, ... equal to
each event's position in the log, and the final event is either a `found`
event or an `eliminate` event with `searchExhausted=true` (or the empty-array
`eliminate` event). -/
theorem C5_trace_invariants (data : List Val) (target : Val) (r : BinarySearchResult)
    (h : execute data target true = .ok r) :
    Numbered r.steps ∧ ∃ d, r.steps.getLast? = some d ∧ TerminalStep d := by
  cases hv : _validate_input data target with
  | error e =>
    unfold execute at h
    rw [hv] at h
    exact absurd h (by simp)
  | ok u =>
    cases u
    by_cases hlen : data.length = 0
    · rw [List.length_eq_zero] at hlen
      subst hlen
      have htf := valid_target_finite hv
      rw [execute_empty target true htf] at h
      injection h with h
      subst h
      constructor
      · exact numbered_add_step
          (numbered_add_step numbered_nil (by simp [lookupKey]))
          (by simp [lookupKey])
      · refine ⟨_, getLast?_add_step _ _, Or.inr ⟨?_, ?_⟩⟩
        · rw [lookupKey_append]
          simp [lookupKey]
        · refine ⟨[("found", PyVal.b false), ("reason", PyVal.s "empty-array")],
            ?_, Or.inr ?_⟩
          · rw [lookupKey_append]
            simp [lookupKey]
          · simp [lookupKey]
    · have h' := execute_valid data target true hv hlen
      rw [h'] at h
      injection h with h
      subst h
      dsimp only
      constructor
      · exact core_numbered data target 0 ((data.length : Int) - 1) _ 0
          (numbered_add_step numbered_nil (by simp [lookupKey]))
      · exact core_last_terminal data target 0 ((data.length : Int) - 1) _ 0

/-- C6 counterexample: validating `[3,1,2]` with target 2 raises a sortedness
error, but its message cites indices 1 and 0 (the code formats `{i}` and
`{i-1}` for the first out-of-order adjacent pair), not indices 1 and 2 as the
claim states: neither "indices 1 and 2" nor "indices 2 and 1" occurs in it. -/
theorem C6_counterexample :
    execute [Val.int 3, Val.int 1, Val.int 2] (Val.int 2) true =
      .error "Array must be sorted for binary search. Found 1 < 3 at indices 1 and 0" ∧
    strContainsSub
      "Array must be sorted for binary search. Found 1 < 3 at indices 1 and 0"
      "indices 1 and 2" = false ∧
    strContainsSub
      "Array must be sorted for binary search. Found 1 < 3 at indices 1 and 0"
      "indices 2 and 1" = false := by
  exact ⟨rfl, rfl, rfl⟩

/-- C6 amended: validating `[3,1,2]` with target 2 raises a sortedness error
whose message cites the values 1 and 3 and the indices 1 and 0; validating
`[1,2,NaN]` raises a finiteness error whose message cites index 2. -/
theorem C6_validation_messages :
    execute [Val.int 3, Val.int 1, Val.int 2] (Val.int 2) true =
      .error "Array must be sorted for binary search. Found 1 < 3 at indices 1 and 0" ∧
    strContainsSub
      "Array must be sorted for binary search. Found 1 < 3 at indices 1 and 0"
      "Found 1 < 3" = true ∧
    strContainsSub
      "Array must be sorted for binary search. Found 1 < 3 at indices 1 and 0"
      "at indices 1 and 0" = true ∧
    execute [Val.int 1, Val.int 2, Val.nan] (Val.int 2) true =
      .error "Array element at index 2 must be a finite number, got: nan" ∧
    strContainsSub "Array element at index 2 must be a finite number, got: nan"
      "index 2" = true := by
  exact ⟨rfl, rfl, rfl, rfl, rfl⟩

theorem check_finite_obj_first_err (l : List PyObj) (k i : Nat) (hi : i < l.length)
    (hbad : (l.getD i (PyObj.num (Val.int 0))).isNumFinite = false)
    (hgood : ∀ j, j < i → (l.getD j (PyObj.num (Val.int 0))).isNumFinite = true) :
    _check_finite_obj l k = .error (.valueError ("Array element at index " ++
      toString (k + i) ++ " must be a finite number, got: " ++
      (l.getD i (PyObj.num (Val.int 0))).toStr)) := by
  match l, i with
  | v :: rest, 0 =>
    rw [_check_finite_obj]
    have hb : v.isNumFinite = false := hbad
    rw [hb]
    rfl
  | v :: rest, i' + 1 =>
    rw [_check_finite_obj]
    have hg : v.isNumFinite = true := hgood 0 (Nat.succ_pos i')
    rw [hg]
    show _check_finite_obj rest (k + 1) = _
    have ih := check_finite_obj_first_err rest (k + 1) i' (by simpa using hi) hbad
      (fun j hj => hgood (j + 1) (by omega))
    rw [ih]
    have harg : k + 1 + i' = k + (i' + 1) := by omega
    rw [harg, List.getD_cons_succ]

theorem execute_obj_ok_of_valid (data : List PyObj) (target : PyObj) (track : Bool)
    (hv : _validate_input_obj data target = .ok ()) :
    ∃ r, execute_obj data target track = .ok r := by
  unfold execute_obj
  rw [hv]
  by_cases hlen : (data.map PyObj.toVal).length = 0
  · simp only [if_pos hlen]
    exact ⟨_, rfl⟩
  · simp only [if_neg hlen]
    exact ⟨_, rfl⟩

/-- C7 counterexample: for `[1, 'a']` — a list containing a non-numeric
element — the routine raises a `TypeError` from the sortedness comparison
`'a' < 1`, not the validation error kind the claim asserts; and for
`[1, 0, NaN]` validation raises, but the sortedness check fires first, so
the message cites neither the offending index 2 nor the offending value
nan. -/
theorem C7_counterexample :
    execute_obj [PyObj.num (Val.int 1), PyObj.str "a"] (PyObj.num (Val.int 2)) true =
      .error (.typeError
        "\x27<\x27 not supported between instances of \x27str\x27 and \x27int\x27") ∧
    (PyErr.typeError
        "\x27<\x27 not supported between instances of \x27str\x27 and \x27int\x27").isValueError =
      false ∧
    (PyObj.str "a").isNumFinite = false ∧
    execute_obj [PyObj.num (Val.int 1), PyObj.num (Val.int 0), PyObj.num Val.nan]
      (PyObj.num (Val.int 2)) true =
      .error (.valueError
        "Array must be sorted for binary search. Found 0 < 1 at indices 1 and 0") ∧
    strContainsSub
      "Array must be sorted for binary search. Found 0 < 1 at indices 1 and 0"
      "2" = false ∧
    strContainsSub
      "Array must be sorted for binary search. Found 0 < 1 at indices 1 and 0"
      "nan" = false :=
  ⟨rfl, rfl, rfl, rfl, rfl, rfl⟩

/-- C7 amended: every failure the routine can produce is raised during
up-front validation, before any search step — validation success guarantees
a normal result in either tracing mode, and any raised exception is exactly
the exception of the validation phase. When the target is finite and every
sortedness comparison succeeds, a sequence containing a non-numeric or
non-finite element raises the validation error kind (`ValueError`) whose
message includes the index and value of the first offending element; but a
sequence whose sortedness loop compares incomparable types (e.g.
`[1, 'a']`) raises a `TypeError` from that comparison instead, so the
validation error is not the only exception kind that can escape. -/
theorem C7_validation_only_failure :
    (∀ (data : List PyObj) (target : PyObj) (track : Bool),
      _validate_input_obj data target = .ok () →
        ∃ r, execute_obj data target track = .ok r) ∧
    (∀ (data : List PyObj) (target : PyObj) (track : Bool) (e : PyErr),
      execute_obj data target track = .error e →
        _validate_input_obj data target = .error e) ∧
    (∀ (data : List PyObj) (target : PyObj) (track : Bool) (i : Nat),
      target.isNumFinite = true →
      _check_sorted_obj data 0 = .ok () →
      i < data.length →
      (data.getD i (PyObj.num (Val.int 0))).isNumFinite = false →
      (∀ j, j < i → (data.getD j (PyObj.num (Val.int 0))).isNumFinite = true) →
      ∃ msg, execute_obj data target track = .error (.valueError msg) ∧
        msg = "Array element at index " ++ toString i ++
          " must be a finite number, got: " ++
          (data.getD i (PyObj.num (Val.int 0))).toStr ∧
        strContainsSub msg (toString i) = true ∧
        strContainsSub msg ((data.getD i (PyObj.num (Val.int 0))).toStr) = true) ∧
    (execute_obj [PyObj.num (Val.int 1), PyObj.str "a"] (PyObj.num (Val.int 2)) true =
      .error (.typeError
        "\x27<\x27 not supported between instances of \x27str\x27 and \x27int\x27") ∧
     (PyErr.typeError
        "\x27<\x27 not supported between instances of \x27str\x27 and \x27int\x27").isValueError =
      false) := by
  refine ⟨?_, ?_, ?_, rfl, rfl⟩
  · intro data target track hv
    exact execute_obj_ok_of_valid data target track hv
  · intro data target track e h
    cases hv : _validate_input_obj data target with
    | error e' =>
      unfold execute_obj at h
      rw [hv] at h
      have h' : (Except.error e' : Except PyErr BinarySearchResult) = Except.error e := h
      injection h' with he
      rw [he]
    | ok u =>
      cases u
      obtain ⟨r, hr⟩ := execute_obj_ok_of_valid data target track hv
      rw [hr] at h
      exact absurd h (by simp)
  · intro data target track i htf hsorted hi hbad hgood
    have hfin := check_finite_obj_first_err data 0 i hi hbad hgood
    rw [Nat.zero_add] at hfin
    have hverr : _validate_input_obj data target =
        .error (.valueError ("Array element at index " ++ toString i ++
          " must be a finite number, got: " ++
          (data.getD i (PyObj.num (Val.int 0))).toStr)) := by
      unfold _validate_input_obj
      rw [htf, hsorted]
      exact hfin
    refine ⟨_, ?_, rfl, ?_, ?_⟩
    · unfold execute_obj
      rw [hverr]
    · rw [String.append_assoc ("Array element at index " ++ toString i)
        " must be a finite number, got: " ((data.getD i (PyObj.num (Val.int 0))).toStr)]
      exact strContainsSub_mid _ _ _
    · exact strContainsSub_right _ _

/-- C8: once the loop is entered (`left ≤ right` with `0 ≤ left` and
`right ≤ length-1`), the probe `mid = floor((left+right)/2)` lies within
`[0, length-1]`, so the accesses `data[left]`, `data[mid]`, `data[right]` are
all in bounds, and both successor states (`mid+1, right` and `left, mid-1`)
keep `0 ≤ left` and `right ≤ length-1`. -/
theorem C8_index_safety (data : List Val) (left right : Int)
    (h0 : 0 ≤ left) (hr : right ≤ (data.length : Int) - 1) (hlr : left ≤ right) :
    (left.toNat < data.length ∧ (midpoint left right).toNat < data.length ∧
      right.toNat < data.length) ∧
    (0 ≤ midpoint left right ∧ midpoint left right ≤ (data.length : Int) - 1) ∧
    (0 ≤ midpoint left right + 1 ∧ right ≤ (data.length : Int) - 1) ∧
    (0 ≤ left ∧ midpoint left right - 1 ≤ (data.length : Int) - 1) := by
  have hm := midpoint_eq_ediv left right
  omega

/-- C9 counterexample: the serialized result's field names are `found`,
`index`, `steps`, `comparisons` — not the claimed `trace`/`comparisonCount` —
and every serialized trace event carries the keys `type`, `indices`,
`metadata`, `description`, `operationCount` — not the claimed
`kind`/`sequenceNumber`. -/
theorem C9_counterexample :
    (BinarySearchResult.to_dict ⟨true, 2, [], 1⟩).map Prod.fst =
      ["found", "index", "steps", "comparisons"] ∧
    ¬ ((BinarySearchResult.to_dict ⟨true, 2, [], 1⟩).map Prod.fst =
      ["found", "index", "trace", "comparisonCount"]) ∧
    (execute [] (Val.int 5) true).map (fun r => r.steps.map (fun s => s.map Prod.fst)) =
      .ok [["type", "indices", "metadata", "description", "operationCount"],
           ["type", "indices", "metadata", "description", "operationCount"]] ∧
    ¬ (["type", "indices", "metadata", "description", "operationCount"] =
       ["kind", "indices", "metadata", "description", "sequenceNumber"]) := by
  refine ⟨rfl, by decide, rfl, by decide⟩

/-- C9 amended: the serialized records carry stable field names, namely
`found`, `index`, `steps`, `comparisons` for the result and `type`, `indices`,
`metadata`, `description`, `operationCount` for every trace event. -/
theorem C9_serialized_fields :
    (∀ r : BinarySearchResult,
      (BinarySearchResult.to_dict r).map Prod.fst =
        ["found", "index", "steps", "comparisons"]) ∧
    (∀ (data : List Val) (target : Val) (r : BinarySearchResult),
      execute data target true = .ok r → KeysOK r.steps) := by
  constructor
  · intro r
    rfl
  · intro data target r h
    cases hv : _validate_input data target with
    | error e =>
      unfold execute at h
      rw [hv] at h
      exact absurd h (by simp)
    | ok u =>
      cases u
      by_cases hlen : data.length = 0
      · rw [List.length_eq_zero] at hlen
        subst hlen
        have htf := valid_target_finite hv
        rw [execute_empty target true htf] at h
        injection h with h
        subst h
        exact keysOK_add_step (keysOK_add_step keysOK_nil rfl) rfl
      · have h' := execute_valid data target true hv hlen
        rw [h'] at h
        injection h with h
        subst h
        dsimp only
        exact core_keysOK data target 0 ((data.length : Int) - 1) _ 0
          (keysOK_add_step keysOK_nil rfl)

theorem core_eval_duplicates :
    _binary_search_core ([Val.int 1, Val.int 2, Val.int 2, Val.int 2, Val.int 5]) (Val.int 2) false 0 4 [] 0 =
      ⟨true, 2, [], 1⟩ := by
  rw [_binary_search_core.eq_def]
  norm_num [show midpoint 0 4 = 2 from rfl, getAt, Val.eqb,
    show (2 : Int).toNat = 2 from rfl, List.getElem_cons_succ, List.getElem_cons_zero]

/-- C10: the implementation is deterministic and returns the first probed
midpoint whose element compares equal to the target; in particular searching
`[1,2,2,2,5]` for 2 returns index 2 (the middle occurrence), not the first
occurrence at index 1. -/
theorem C10_duplicates :
    binary_search ([Val.int 1, Val.int 2, Val.int 2, Val.int 2, Val.int 5]) (Val.int 2) = .ok 2 ∧
    ¬ (binary_search ([Val.int 1, Val.int 2, Val.int 2, Val.int 2, Val.int 5]) (Val.int 2) = .ok 1) ∧
    (execute ([Val.int 1, Val.int 2, Val.int 2, Val.int 2, Val.int 5]) (Val.int 2) true).map
      (fun r => (r.found, r.index)) = .ok (true, 2) ∧
    (∀ (data : List Val) (target : Val) (r : BinarySearchResult),
      execute data target false = .ok r → r.found = true →
      (probes data target 0 ((data.length : Int) - 1)).find?
          (fun m => (getAt data m).eqb target) = some r.index) := by
  have hex := execute_valid ([Val.int 1, Val.int 2, Val.int 2, Val.int 2, Val.int 5]) (Val.int 2) false rfl (by simp)
  norm_num [core_eval_duplicates] at hex
  have ha : binary_search ([Val.int 1, Val.int 2, Val.int 2, Val.int 2, Val.int 5]) (Val.int 2) = .ok 2 := by
    unfold binary_search
    rw [hex]
  refine ⟨ha, ?_, ?_, ?_⟩
  · intro hcontra
    have h12 := ha.symm.trans hcontra
    injection h12 with h12
    exact absurd h12 (by decide)
  · have hex2 := execute_valid ([Val.int 1, Val.int 2, Val.int 2, Val.int 2, Val.int 5]) (Val.int 2) true rfl (by simp)
    norm_num at hex2
    rw [hex2]
    have hf := (core_track_irrelevant ([Val.int 1, Val.int 2, Val.int 2, Val.int 2, Val.int 5]) (Val.int 2) 0 4
      (_add_step []
        [("type", PyVal.s "init"),
         ("indices", PyVal.list []),
         ("metadata", PyVal.dict
           [("target", PyVal.v (Val.int 2)), ("arrayLength", PyVal.i 5),
            ("algorithm", PyVal.s "binary-search"), ("language", PyVal.s "python")]),
         ("description", PyVal.s ("Initialize binary search for target " ++
           (Val.int 2).toStr ++ " in sorted array of " ++ toString 5 ++
           " elements"))]) [] 0)
    rw [core_eval_duplicates] at hf
    obtain ⟨hf1, hf2, _⟩ := hf
    show Except.ok (_, _) = _
    rw [hf1, hf2]
  · intro data target r h hfound
    cases hv : _validate_input data target with
    | error e =>
      unfold execute at h
      rw [hv] at h
      exact absurd h (by simp)
    | ok u =>
      cases u
      by_cases hlen : data.length = 0
      · rw [List.length_eq_zero] at hlen
        subst hlen
        have htf := valid_target_finite hv
        rw [execute_empty target false htf] at h
        injection h with h
        subst h
        exact Bool.noConfusion hfound
      · have h' := execute_valid data target false hv hlen
        rw [h'] at h
        injection h with h
        subst h
        dsimp only at hfound ⊢
        exact core_first_probe data target 0 ((data.length : Int) - 1) _ 0 hfound

/-! ## Witnesses -/

theorem run_135 :
    execute [Val.int 1, Val.int 3, Val.int 5] (Val.int 3) false = .ok ⟨true, 1, [], 1⟩ := by
  have hc : _binary_search_core [Val.int 1, Val.int 3, Val.int 5] (Val.int 3) false 0 2 [] 0 =
      ⟨true, 1, [], 1⟩ := by
    rw [_binary_search_core.eq_def]
    norm_num [show midpoint 0 2 = 1 from rfl, getAt, Val.eqb,
      show (1 : Int).toNat = 1 from rfl, List.getElem_cons_succ, List.getElem_cons_zero]
  have hex := execute_valid [Val.int 1, Val.int 3, Val.int 5] (Val.int 3) false rfl (by simp)
  norm_num [hc] at hex
  exact hex

theorem run_duplicates :
    execute [Val.int 1, Val.int 2, Val.int 2, Val.int 2, Val.int 5] (Val.int 2) false =
      .ok ⟨true, 2, [], 1⟩ := by
  have hex := execute_valid [Val.int 1, Val.int 2, Val.int 2, Val.int 2, Val.int 5]
    (Val.int 2) false rfl (by simp)
  norm_num [core_eval_duplicates] at hex
  exact hex

theorem C1_search_correct_witness :
    List.Chain' (· ≤ ·) ([1, 3, 5] : List Int) ∧
    ((3 ∈ ([1, 3, 5] : List Int) → ∃ j : Nat, j < ([1, 3, 5] : List Int).length ∧
        binary_search (([1, 3, 5] : List Int).map Val.int) (Val.int 3) = .ok (j : Int) ∧
        ([1, 3, 5] : List Int).getD j 0 = 3) ∧
     (3 ∉ ([1, 3, 5] : List Int) →
        binary_search (([1, 3, 5] : List Int).map Val.int) (Val.int 3) = .ok (-1))) :=
  ⟨by norm_num [List.chain'_cons], C1_search_correct [1, 3, 5] 3 (by norm_num [List.chain'_cons])⟩

theorem C2_tracing_toggle_witness :
    execute [] (Val.int 5) false = .ok emptyRunUntracked ∧
    execute [] (Val.int 5) true = .ok emptyRunTracked ∧
    (emptyRunUntracked.found = emptyRunTracked.found ∧
     emptyRunUntracked.index = emptyRunTracked.index ∧
     emptyRunUntracked.comparisons = emptyRunTracked.comparisons ∧
     emptyRunUntracked.steps = []) :=
  ⟨rfl, rfl, C2_tracing_toggle [] (Val.int 5) emptyRunUntracked emptyRunTracked rfl rfl⟩

theorem C3_comparison_bound_witness :
    execute [Val.int 1, Val.int 3, Val.int 5] (Val.int 3) false = .ok ⟨true, 1, [], 1⟩ ∧
    ((⟨true, 1, [], 1⟩ : BinarySearchResult).comparisons ≤
        Nat.clog 2 ([Val.int 1, Val.int 3, Val.int 5].length + 1) ∧
      (0 < [Val.int 1, Val.int 3, Val.int 5].length →
        1 ≤ (⟨true, 1, [], 1⟩ : BinarySearchResult).comparisons)) :=
  ⟨run_135, C3_comparison_bound [Val.int 1, Val.int 3, Val.int 5] (Val.int 3) false
    ⟨true, 1, [], 1⟩ run_135⟩

theorem C4_empty_sequence_witness :
    (Val.int 5).isFinite = true ∧
    ((∃ r, execute [] (Val.int 5) true = .ok r ∧
      r.found = false ∧ r.index = -1 ∧ r.comparisons = 0 ∧
      r.steps.length = 2 ∧
      (r.steps.filter (fun d =>
        match lookupKey d "type" with
        | some (PyVal.s k) => k == "eliminate"
        | _ => false)).length = 1 ∧
      ∃ d, r.steps.getLast? = some d ∧
        lookupKey d "type" = some (PyVal.s "eliminate") ∧
        ∃ m, lookupKey d "metadata" = some (PyVal.dict m) ∧
          lookupKey m "reason" = some (PyVal.s "empty-array")) ∧
     binary_search [] (Val.int 5) = .ok (-1)) :=
  ⟨rfl, C4_empty_sequence (Val.int 5) rfl⟩

theorem C5_trace_invariants_witness :
    execute [] (Val.int 5) true = .ok emptyRunTracked ∧
    (Numbered emptyRunTracked.steps ∧
      ∃ d, emptyRunTracked.steps.getLast? = some d ∧ TerminalStep d) :=
  ⟨rfl, C5_trace_invariants [] (Val.int 5) emptyRunTracked rfl⟩

theorem C7_validation_only_failure_witness :
    (PyObj.num (Val.int 2)).isNumFinite = true ∧
    _check_sorted_obj [PyObj.str "a", PyObj.str "b"] 0 = .ok () ∧
    ([PyObj.str "a", PyObj.str "b"].getD 0 (PyObj.num (Val.int 0))).isNumFinite = false ∧
    (∃ msg, execute_obj [PyObj.str "a", PyObj.str "b"] (PyObj.num (Val.int 2)) true =
        .error (.valueError msg) ∧
      msg = "Array element at index " ++ toString 0 ++
        " must be a finite number, got: " ++
        ([PyObj.str "a", PyObj.str "b"].getD 0 (PyObj.num (Val.int 0))).toStr ∧
      strContainsSub msg (toString 0) = true ∧
      strContainsSub msg
        (([PyObj.str "a", PyObj.str "b"].getD 0 (PyObj.num (Val.int 0))).toStr) = true) :=
  ⟨rfl, rfl, rfl, C7_validation_only_failure.2.2.1 [PyObj.str "a", PyObj.str "b"]
    (PyObj.num (Val.int 2)) true 0 rfl rfl (by decide) rfl
    (fun j hj => absurd hj (Nat.not_lt_zero j))⟩

theorem C8_index_safety_witness :
    ((0 : Int) ≤ 0 ∧ (2 : Int) ≤ ([Val.int 1, Val.int 2, Val.int 3].length : Int) - 1 ∧
      (0 : Int) ≤ 2) ∧
    (((0 : Int).toNat < [Val.int 1, Val.int 2, Val.int 3].length ∧
       (midpoint 0 2).toNat < [Val.int 1, Val.int 2, Val.int 3].length ∧
       (2 : Int).toNat < [Val.int 1, Val.int 2, Val.int 3].length) ∧
     (0 ≤ midpoint 0 2 ∧ midpoint 0 2 ≤ ([Val.int 1, Val.int 2, Val.int 3].length : Int) - 1) ∧
     (0 ≤ midpoint 0 2 + 1 ∧ (2 : Int) ≤ ([Val.int 1, Val.int 2, Val.int 3].length : Int) - 1) ∧
     ((0 : Int) ≤ 0 ∧ midpoint 0 2 - 1 ≤ ([Val.int 1, Val.int 2, Val.int 3].length : Int) - 1)) :=
  ⟨⟨by decide, by decide, by decide⟩,
   C8_index_safety [Val.int 1, Val.int 2, Val.int 3] 0 2 (by decide) (by decide) (by decide)⟩

theorem C9_serialized_fields_witness :
    (BinarySearchResult.to_dict emptyRunUntracked).map Prod.fst =
      ["found", "index", "steps", "comparisons"] ∧
    execute [] (Val.int 5) true = .ok emptyRunTracked ∧
    KeysOK emptyRunTracked.steps :=
  ⟨C9_serialized_fields.1 emptyRunUntracked, rfl,
   C9_serialized_fields.2 [] (Val.int 5) emptyRunTracked rfl⟩

theorem C10_duplicates_witness :
    execute [Val.int 1, Val.int 2, Val.int 2, Val.int 2, Val.int 5] (Val.int 2) false =
      .ok ⟨true, 2, [], 1⟩ ∧
    (probes [Val.int 1, Val.int 2, Val.int 2, Val.int 2, Val.int 5] (Val.int 2) 0
        (([Val.int 1, Val.int 2, Val.int 2, Val.int 2, Val.int 5].length : Int) - 1)).find?
        (fun m => (getAt [Val.int 1, Val.int 2, Val.int 2, Val.int 2, Val.int 5] m).eqb
          (Val.int 2)) =
      some (⟨true, 2, [], 1⟩ : BinarySearchResult).index :=
  ⟨run_duplicates, C10_duplicates.2.2.2
    [Val.int 1, Val.int 2, Val.int 2, Val.int 2, Val.int 5] (Val.int 2)
    ⟨true, 2, [], 1⟩ run_duplicates rfl⟩

end BinarySearchPy
